import Mathlib

/-!
# ObjectTracking (Main.cpp): capture session, segmenter and feature matcher

A shallow embedding of `Main.cpp`.  The program is a frame loop around two
functions, `thresh_callback` (the segmenter) and `match` (the feature matcher).
Everything OpenCV computes is taken as a parameter (`OpenCV`); what is embedded
is the control flow and arithmetic written in `Main.cpp` itself.

Numbers: `DMatch::distance` is a `float` that the program widens to `double`,
`contourArea` returns a `double`.  Finite values of both are rationals and the
program only compares them and doubles them (exact in `double` for a widened
`float`), so they are embedded in `ℚ`.  The literal `0.02` is embedded as
`1/50`: no `float` lies strictly between `1/50` and the `double` nearest to it,
so the comparison `distance <= max(2 * min_dist, 0.02)` decides the same.
-/

namespace ObjectTracking

/-! ## The ways the process stops instead of going on -/

/-- Status of the process after a piece of code ran. -/
inductive Outcome where
  /-- the code ran to its end and the frame loop goes on -/
  | running
  /-- the `while` loop was left: Esc, camera closed, or `break` on a failed read -/
  | loopLeft
  /-- a read past the end of a `std::vector` (`boundRect[0]` of an empty
  vector, `matches[i]` with `i >= matches.size()`): undefined behaviour,
  embedded as the process stopping at that statement -/
  | outOfRange
  /-- the call `exit(EXIT_FAILURE)` in `match` -/
  | exitFailure
deriving DecidableEq, Repr

/-! ## OpenCV, as parameters -/

/-- The OpenCV operations `Main.cpp` calls.  `Mat` is an image value (pixel
content; `clone` and the header copies of `push_back` keep it), `Contour` a
`vector<Point>`, `Rect` a `cv::Rect`. -/
structure OpenCV (Mat Contour Rect : Type) where
  /-- the default-constructed `Mat` of the globals -/
  emptyMat : Mat
  /-- the test `Mat::empty()` -/
  empty : Mat → Bool
  /-- the test `img.data != NULL` -/
  hasData : Mat → Bool
  /-- the call `cvtColor(src, dst, CV_BGR2GRAY)` -/
  cvtColor : Mat → Mat
  /-- the call `blur(src, dst, Size(3, 3))` -/
  blur : Mat → Mat
  /-- the call `threshold(src, dst, thresh, 255, THRESH_BINARY)` -/
  threshold : Mat → Int → Mat
  /-- the call `findContours(img, contours, hierarchy, CV_RETR_EXTERNAL, CV_CHAIN_APPROX_SIMPLE, Point(0, 0))` -/
  findContours : Mat → List Contour
  /-- the call `approxPolyDP(Mat(c), poly, 3, true)` -/
  approxPolyDP : Contour → Contour
  /-- the call `boundingRect(Mat(poly))` -/
  boundingRect : Contour → Rect
  /-- the call `contourArea(c)` -/
  contourArea : Contour → ℚ
  /-- the region of interest `img(rect)` -/
  roi : Mat → Rect → Mat
  /-- the value of `descriptors_1.rows` after SURF detect and compute on `img_1` -/
  descriptorRows : Mat → Nat
  /-- the `distance` fields of `matches` after `matcher.match(descriptors_1, descriptors_2, matches)` -/
  matchDistances : Mat → Mat → List ℚ

/-! ## `match` (lines 181-260) -/

/-- The loop `for (int i = 0; i < rows; i++) { ... v[i] ... }` over the indices
`idxs`, with loop state `σ`.  `none` is a read `v[i]` past the end of `v`. -/
def indexLoop {σ : Type} (v : List ℚ) (body : σ → ℚ → σ) : List Nat → σ → Option σ
  | [], acc => some acc
  | i :: rest, acc =>
    match v[i]? with
    | none => none
    | some d => indexLoop v body rest (body acc d)

/-- Lines 212-214: the body of the first loop, on `(min_dist, max_dist)`. -/
def minMaxBody (acc : ℚ × ℚ) (dist : ℚ) : ℚ × ℚ :=
  (if dist < acc.1 then dist else acc.1, if dist > acc.2 then dist else acc.2)

/-- Lines 228-231: the body of the second loop, on `good_matches`. -/
def goodBody (min_dist : ℚ) (good_matches : List ℚ) (dist : ℚ) : List ℚ :=
  if dist ≤ max (2 * min_dist) (1 / 50) then good_matches ++ [dist] else good_matches

/-- Lines 207-234: `nMatches` from `descriptors_1.rows` and the distances of
`matches`.  `none` is an out-of-range read of `matches`. -/
def goodMatchCount (rows : Nat) (matches_ : List ℚ) : Option Nat :=
  match indexLoop matches_ minMaxBody (List.range rows) (100, 0) with
  | none => none
  | some (min_dist, _) =>
    match indexLoop matches_ (goodBody min_dist) (List.range rows) [] with
    | none => none
    | some good_matches => some good_matches.length

/-- The function `match(img_1, img_2, img_id)`: the outcome and, when it
returns, `nMatches`. -/
def match_ {Mat Contour Rect : Type} (cv : OpenCV Mat Contour Rect)
    (img_1 img_2 : Mat) : Outcome × Option Nat :=
  if !cv.hasData img_1 || !cv.hasData img_2 then (Outcome.exitFailure, none)
  else
    match goodMatchCount (cv.descriptorRows img_1) (cv.matchDistances img_1 img_2) with
    | none => (Outcome.outOfRange, none)
    | some nMatches => (Outcome.running, some nMatches)

/-- The globals of `Main.cpp` that the frame loop and `thresh_callback` read
and write, with the locals `keyPressed` and `capturing` of `main`. -/
structure Session (Mat : Type) where
  /-- the `char keyPressed` of `main`, as its integer value -/
  keyPressed : Int
  /-- the `bool capturing` of `main` -/
  capturing : Bool
  /-- the global `vector<Mat> capturedImgs` -/
  capturedImgs : List Mat
  /-- the global `Mat imgCropped` -/
  imgCropped : Mat
  /-- the global `Mat imgCapture` -/
  imgCapture : Mat
  /-- the global `Mat imgCaptureGray` -/
  imgCaptureGray : Mat
  /-- the global `int thresh` -/
  thresh : Int
deriving DecidableEq, Repr

/-- Lines 149-160, the part that chooses: the loop over `contours` from index
`i` on, with loop state `(maxBoundRect, maxArea)`. -/
def maxAreaLoop {Contour : Type} (contourArea : Contour → ℚ) :
    List Contour → Nat → Nat × ℚ → Nat × ℚ
  | [], _, acc => acc
  | c :: rest, i, (maxBoundRect, maxArea) =>
    if contourArea c > maxArea then maxAreaLoop contourArea rest (i + 1) (i, contourArea c)
    else maxAreaLoop contourArea rest (i + 1) (maxBoundRect, maxArea)

/-- The `contours` of `thresh_callback`: lines 136 and 139. -/
def contoursOf {Mat Contour Rect : Type} (cv : OpenCV Mat Contour Rect)
    (imgCaptureGray : Mat) (thresh : Int) : List Contour :=
  cv.findContours (cv.threshold imgCaptureGray thresh)

/-- The function `thresh_callback(int, void*)`.  `boundRect[i]` holds, after the
loop, the bounding rectangle of the polygon of `contours[i]`; line 162 reads
`boundRect[maxBoundRect]`, which is out of range when there is no contour.
The windows it draws are left out. -/
def thresh_callback {Mat Contour Rect : Type} (cv : OpenCV Mat Contour Rect)
    (s : Session Mat) : Outcome × Session Mat :=
  let contours := contoursOf cv s.imgCaptureGray s.thresh
  let boundRect := contours.map (fun c => cv.boundingRect (cv.approxPolyDP c))
  let maxBoundRect := (maxAreaLoop cv.contourArea contours 0 (0, 0)).1
  match boundRect[maxBoundRect]? with
  | none => (Outcome.outOfRange, s)
  | some r => (Outcome.running, { s with imgCropped := cv.roi s.imgCapture r })

/-! ## `main` (lines 50-126) -/

/-- What the outside gives one pass of the `while` loop. -/
structure Input (Mat : Type) where
  /-- the value of `capWebcam.isOpened()` in the loop condition -/
  isOpened : Bool
  /-- the frame of `capWebcam.read(imgCamera)`; `none` when it returns false -/
  read : Option Mat
  /-- the positions the trackbar is moved to while `waitKey(1)` runs, in order -/
  trackbar : List Int
  /-- the value `waitKey(1)` returns -/
  key : Int

/-- The conversion of the `int` of `waitKey` to the `char keyPressed`
(8 bits, signed). -/
def toChar (k : Int) : Int := (k + 128) % 256 - 128

/-- Lines 109-112: `match` of the frame against each captured image in turn.
The counts are printed and dropped; what is left is whether the process goes on. -/
def matchLoop {Mat Contour Rect : Type} (cv : OpenCV Mat Contour Rect)
    (imgCamera : Mat) : List Mat → Outcome
  | [] => Outcome.running
  | img :: rest =>
    match (match_ cv imgCamera img).1 with
    | Outcome.running => matchLoop cv imgCamera rest
    | o => o

/-- Lines 83-95: the block of `keyPressed == 32`. -/
def startCapture {Mat Contour Rect : Type} (cv : OpenCV Mat Contour Rect)
    (s : Session Mat) (imgCamera : Mat) : Outcome × Session Mat :=
  thresh_callback cv
    { s with
      capturing := true
      imgCapture := imgCamera
      imgCaptureGray := cv.blur (cv.cvtColor imgCamera) }

/-- Lines 97-107: the block of `keyPressed == 13 && capturing`. -/
def commit {Mat : Type} (s : Session Mat) : Session Mat :=
  { s with
    capturedImgs := s.capturedImgs ++ [s.imgCropped]
    capturing := false
    thresh := 100 }

/-- Lines 70-112: the body of the `while` loop up to the call of `waitKey`. -/
def loopBody {Mat Contour Rect : Type} (cv : OpenCV Mat Contour Rect)
    (s : Session Mat) (inp : Input Mat) : Outcome × Session Mat :=
  match inp.read with
  | none => (Outcome.loopLeft, s)
  | some imgCamera =>
    if cv.empty imgCamera then (Outcome.loopLeft, s)
    else
      let r1 := if s.keyPressed = 32 then startCapture cv s imgCamera else (Outcome.running, s)
      match r1 with
      | (Outcome.running, s1) =>
        let s2 := if s1.keyPressed = 13 ∧ s1.capturing = true then commit s1 else s1
        (matchLoop cv imgCamera s2.capturedImgs, s2)
      | stopped => stopped

/-- One move of the trackbar made by `createTrackbar(" Threshold:",
windowCaptureName, &thresh, max_thresh, thresh_callback)`: the position is
stored in `thresh` and `thresh_callback` is called. -/
def trackbarMoved {Mat Contour Rect : Type} (cv : OpenCV Mat Contour Rect)
    (s : Session Mat) (pos : Int) : Outcome × Session Mat :=
  thresh_callback cv { s with thresh := pos }

/-- The trackbar moves handled inside one `waitKey(1)`. -/
def trackbarMoves {Mat Contour Rect : Type} (cv : OpenCV Mat Contour Rect) :
    Session Mat → List Int → Outcome × Session Mat
  | s, [] => (Outcome.running, s)
  | s, pos :: rest =>
    match trackbarMoved cv s pos with
    | (Outcome.running, s1) => trackbarMoves cv s1 rest
    | stopped => stopped

/-- Line 114, `keyPressed = waitKey(1)`.  The trackbar lives in the window
`windowCaptureName`, which line 87 shows and line 103 destroys: it exists
exactly while `capturing`, so its moves are handled only then. -/
def waitKey {Mat Contour Rect : Type} (cv : OpenCV Mat Contour Rect)
    (s : Session Mat) (inp : Input Mat) : Outcome × Session Mat :=
  match (if s.capturing then trackbarMoves cv s inp.trackbar else (Outcome.running, s)) with
  | (Outcome.running, s1) => (Outcome.running, { s1 with keyPressed := toChar inp.key })
  | stopped => stopped

/-- One pass of the `while` loop: the condition of line 69, the body, `waitKey`. -/
def iteration {Mat Contour Rect : Type} (cv : OpenCV Mat Contour Rect)
    (s : Session Mat) (inp : Input Mat) : Outcome × Session Mat :=
  if s.keyPressed ≠ 27 ∧ inp.isOpened = true then
    match loopBody cv s inp with
    | (Outcome.running, s1) => waitKey cv s1 inp
    | stopped => stopped
  else (Outcome.loopLeft, s)

/-- The `while` loop of lines 69-115 over the inputs given; `running` when the
inputs end with the loop still going. -/
def whileLoop {Mat Contour Rect : Type} (cv : OpenCV Mat Contour Rect) :
    Session Mat → List (Input Mat) → Outcome × Session Mat
  | s, [] => (Outcome.running, s)
  | s, inp :: rest =>
    match iteration cv s inp with
    | (Outcome.running, s1) => whileLoop cv s1 rest
    | stopped => stopped

/-- The globals and locals as `main` has them before the loop (lines 26-30, 66, 67). -/
def initialSession {Mat Contour Rect : Type} (cv : OpenCV Mat Contour Rect) : Session Mat :=
  { keyPressed := 0
    capturing := false
    capturedImgs := []
    imgCropped := cv.emptyMat
    imgCapture := cv.emptyMat
    imgCaptureGray := cv.emptyMat
    thresh := 100 }

/-- The function `main`, up to the end of the frame loop: `camOpened` is
`capWebcam.isOpened()` of line 53. -/
def main {Mat Contour Rect : Type} (cv : OpenCV Mat Contour Rect) (camOpened : Bool)
    (inputs : List (Input Mat)) : Outcome × Session Mat :=
  if camOpened then whileLoop cv (initialSession cv) inputs
  else (Outcome.loopLeft, initialSession cv)

/-! ## The segmenter as the specification words it -/

/-- Result of the specification's `segment`. -/
inductive Segmented (Mat : Type) where
  | region : Mat → Segmented Mat
  | noRegionFound : Segmented Mat
deriving DecidableEq, Repr

/-- The specification's `segment(frame, thresholdValue)` (section 4.1): gray,
blur, threshold, external contours; the first contour whose raw area no other
contour exceeds; the crop of the original frame to the bounding rectangle of
its polygon; `NoRegionFound` when there is no contour. -/
def segment {Mat Contour Rect : Type} (cv : OpenCV Mat Contour Rect)
    (frame : Mat) (thresholdValue : Int) : Segmented Mat :=
  let contours := contoursOf cv (cv.blur (cv.cvtColor frame)) thresholdValue
  match contours.find? (fun c => contours.all (fun c' => decide (cv.contourArea c' ≤ cv.contourArea c))) with
  | none => Segmented.noRegionFound
  | some c => Segmented.region (cv.roi frame (cv.boundingRect (cv.approxPolyDP c)))

/-! ## A small instance of the OpenCV parameters, to run the embedding -/

/-- An image is the list of the brightnesses of its blobs; a blob is brighter
than the threshold or gone, its contour, its area and its rectangle are all
its brightness, and the crop to a rectangle is the one-blob image. -/
def blobCV : OpenCV (List Nat) Nat Nat where
  emptyMat := []
  empty := fun m => m.isEmpty
  hasData := fun m => !m.isEmpty
  cvtColor := fun m => m
  blur := fun m => m
  threshold := fun m t => m.filter (fun b => decide (t < (b : Int)))
  findContours := fun m => m
  approxPolyDP := fun c => c
  boundingRect := fun c => c
  contourArea := fun c => (c : ℚ)
  roi := fun _ r => [r]
  descriptorRows := fun m => m.length
  matchDistances := fun a _ => a.map (fun b => (b : ℚ))

/-! ## What the loops keep true -/

/-- The value of `min_dist` after the first loop of `match`. -/
def minDistAfter (ds : List ℚ) : ℚ := (ds.foldl minMaxBody (100, 0)).1

/-- What the loop of lines 149-160 keeps true of `(maxBoundRect, maxArea)` once
it has gone through the contours `seen`, all of non-negative area. -/
def MaxAreaInv {Contour : Type} (contourArea : Contour → ℚ) (seen : List Contour)
    (maxBoundRect : Nat) (maxArea : ℚ) : Prop :=
  (∀ c ∈ seen, contourArea c ≤ maxArea) ∧
  (∀ j c, j < maxBoundRect → seen[j]? = some c → contourArea c < maxArea) ∧
  ((seen = [] ∧ maxBoundRect = 0 ∧ maxArea = 0) ∨
    ∃ c, seen[maxBoundRect]? = some c ∧ contourArea c = maxArea)

/-! ## Sessions of `blobCV` -/

/-- A session of `blobCV` in preview of the frame `[120, 300, 300, 90]`. -/
def previewSession (thresh : Int) : Session (List Nat) :=
  { keyPressed := 0
    capturing := true
    capturedImgs := []
    imgCropped := []
    imgCapture := [120, 300, 300, 90]
    imgCaptureGray := [120, 300, 300, 90]
    thresh := thresh }

/-- A session of `blobCV` that is not capturing, with one captured image and
key 32 pending. -/
def idleSession : Session (List Nat) :=
  { keyPressed := 32
    capturing := false
    capturedImgs := [[7]]
    imgCropped := []
    imgCapture := []
    imgCaptureGray := []
    thresh := 100 }

/-- A session of `blobCV` in preview of `[120, 300]` with the threshold moved
to 180 and key 32 pending, and a pass that reads `[120, 300]` again. -/
def retriggerSession : Session (List Nat) :=
  { keyPressed := 32
    capturing := true
    capturedImgs := [[7]]
    imgCropped := [300]
    imgCapture := [120, 300]
    imgCaptureGray := [120, 300]
    thresh := 180 }

/-- The session `retriggerSession` with key 13 pending instead of key 32. -/
def commitSession : Session (List Nat) := { retriggerSession with keyPressed := 13 }

/-! # Theorems -/

/-! ### Lemmas on the two loops of `match` -/

theorem indexLoop_range' {σ : Type} (body : σ → ℚ → σ) (suf : List ℚ) :
    ∀ (pre : List ℚ) (acc : σ),
      indexLoop (pre ++ suf) body (List.range' pre.length suf.length) acc
        = some (suf.foldl body acc) := by
  induction suf with
  | nil => intro pre acc; simp [indexLoop]
  | cons d ds ih =>
    intro pre acc
    have h := ih (pre ++ [d]) (body acc d)
    simp only [List.length_append, List.length_singleton, List.append_assoc,
      List.singleton_append] at h
    have hd : (pre ++ d :: ds)[pre.length]? = some d := by
      rw [List.getElem?_append_right (le_refl _)]; simp
    simp only [List.length_cons, List.range', indexLoop, hd]
    exact h

theorem indexLoop_range {σ : Type} (body : σ → ℚ → σ) (v : List ℚ) (acc : σ) :
    indexLoop v body (List.range v.length) acc = some (v.foldl body acc) := by
  have h := indexLoop_range' body v [] acc
  simpa [List.range_eq_range'] using h

theorem foldl_minMaxBody_fst (ds : List ℚ) :
    ∀ (a b : ℚ), (ds.foldl minMaxBody (a, b)).1 ∈ a :: ds ∧
      ∀ d ∈ a :: ds, (ds.foldl minMaxBody (a, b)).1 ≤ d := by
  induction ds with
  | nil => intro a b; simp
  | cons x xs ih =>
    intro a b
    simp only [List.foldl_cons, minMaxBody]
    by_cases hx : x < a
    · obtain ⟨hmem, hle⟩ := ih x (if x > b then x else b)
      simp only [hx, if_true]
      refine ⟨List.mem_cons_of_mem _ hmem, ?_⟩
      intro d hd
      rcases List.mem_cons.mp hd with rfl | hd
      · exact le_trans (hle x (List.mem_cons_self _ _)) (le_of_lt hx)
      · exact hle d hd
    · obtain ⟨hmem, hle⟩ := ih a (if x > b then x else b)
      simp only [hx, if_false]
      refine ⟨?_, ?_⟩
      · rcases List.mem_cons.mp hmem with h | h
        · rw [h]; exact List.mem_cons_self _ _
        · exact List.mem_cons_of_mem _ (List.mem_cons_of_mem _ h)
      · intro d hd
        rcases List.mem_cons.mp hd with rfl | hd
        · exact hle _ (List.mem_cons_self _ _)
        · rcases List.mem_cons.mp hd with rfl | hd
          · exact le_trans (hle a (List.mem_cons_self _ _)) (not_lt.mp hx)
          · exact hle d (List.mem_cons_of_mem _ hd)

theorem foldl_goodBody (m : ℚ) (ds : List ℚ) :
    ∀ g : List ℚ, ds.foldl (goodBody m) g
      = g ++ ds.filter (fun d => decide (d ≤ max (2 * m) (1 / 50))) := by
  induction ds with
  | nil => intro g; simp
  | cons x xs ih =>
    intro g
    simp only [List.foldl_cons, goodBody]
    by_cases hx : x ≤ max (2 * m) (1 / 50)
    · rw [if_pos hx, ih, List.filter_cons, if_pos (decide_eq_true hx)]
      simp
    · rw [if_neg hx, ih, List.filter_cons, if_neg (by simpa using hx)]

theorem goodMatchCount_length (ds : List ℚ) :
    goodMatchCount ds.length ds
      = some (ds.countP (fun d => decide (d ≤ max (2 * minDistAfter ds) (1 / 50)))) := by
  unfold goodMatchCount minDistAfter
  rw [indexLoop_range]
  simp only []
  rw [indexLoop_range, foldl_goodBody]
  simp [List.countP_eq_length_filter]

/-- The least element of `100 :: ds` is unique, and it is `minDistAfter ds`. -/
theorem minDistAfter_unique (ds : List ℚ) (m : ℚ) (hm : m ∈ 100 :: ds)
    (hmin : ∀ d ∈ 100 :: ds, m ≤ d) : minDistAfter ds = m := by
  obtain ⟨hmem, hle⟩ := foldl_minMaxBody_fst ds 100 0
  exact le_antisymm (hle m hm) (hmin _ hmem)

/-- When both images have data and `matches` has one entry per query descriptor,
`match` returns the number of distances within `max(2 * min_dist, 0.02)`, for
the `min_dist` its first loop leaves. -/
theorem match_eq {Mat Contour Rect : Type} (cv : OpenCV Mat Contour Rect)
    (img_1 img_2 : Mat) (h1 : cv.hasData img_1 = true) (h2 : cv.hasData img_2 = true)
    (hrows : cv.descriptorRows img_1 = (cv.matchDistances img_1 img_2).length) :
    match_ cv img_1 img_2 = (Outcome.running, some ((cv.matchDistances img_1 img_2).countP
      (fun d => decide (d ≤ max (2 * minDistAfter (cv.matchDistances img_1 img_2)) (1 / 50))))) := by
  unfold match_
  rw [hrows, goodMatchCount_length]
  simp [h1, h2]

/-! ### Lemmas on the loop of `thresh_callback` -/

theorem maxAreaInv_step {Contour : Type} (contourArea : Contour → ℚ) (seen : List Contour)
    (c : Contour) (mb : Nat) (ma : ℚ) (hc : 0 ≤ contourArea c)
    (h : MaxAreaInv contourArea seen mb ma) :
    MaxAreaInv contourArea (seen ++ [c])
      (if contourArea c > ma then seen.length else mb)
      (if contourArea c > ma then contourArea c else ma) := by
  obtain ⟨hle, hlt, hat⟩ := h
  by_cases hgt : contourArea c > ma
  · simp only [hgt, if_true]
    refine ⟨?_, ?_, Or.inr ⟨c, by simp, rfl⟩⟩
    · intro c' hc'
      rcases List.mem_append.mp hc' with h' | h'
      · exact le_trans (hle c' h') (le_of_lt hgt)
      · rw [List.mem_singleton.mp h']
    · intro j c' hj hjc
      rw [List.getElem?_append_left hj] at hjc
      exact lt_of_le_of_lt (hle c' (List.getElem?_mem hjc)) hgt
  · simp only [hgt, if_false]
    have hcle : contourArea c ≤ ma := not_lt.mp hgt
    refine ⟨?_, ?_, ?_⟩
    · intro c' hc'
      rcases List.mem_append.mp hc' with h' | h'
      · exact hle c' h'
      · rw [List.mem_singleton.mp h']; exact hcle
    · intro j c' hj hjc
      rcases hat with ⟨_, hmb, _⟩ | ⟨c0, hc0, _⟩
      · omega
      · have hmblt : mb < seen.length := by
          by_contra hn
          rw [List.getElem?_eq_none (not_lt.mp hn)] at hc0
          cases hc0
        rw [List.getElem?_append_left (lt_trans hj hmblt)] at hjc
        exact hlt j c' hj hjc
    · right
      rcases hat with ⟨hnil, hmb, hma⟩ | ⟨c0, hc0, hc0a⟩
      · refine ⟨c, ?_, ?_⟩
        · rw [hnil, hmb]; rfl
        · rw [hma] at hcle ⊢; exact le_antisymm hcle hc
      · refine ⟨c0, ?_, hc0a⟩
        have hmblt : mb < seen.length := by
          by_contra hn
          rw [List.getElem?_eq_none (not_lt.mp hn)] at hc0
          cases hc0
        rw [List.getElem?_append_left hmblt]; exact hc0

theorem maxAreaLoop_inv {Contour : Type} (contourArea : Contour → ℚ) (rest : List Contour) :
    ∀ (seen : List Contour) (mb : Nat) (ma : ℚ),
      (∀ c ∈ rest, 0 ≤ contourArea c) → MaxAreaInv contourArea seen mb ma →
      MaxAreaInv contourArea (seen ++ rest)
        (maxAreaLoop contourArea rest seen.length (mb, ma)).1
        (maxAreaLoop contourArea rest seen.length (mb, ma)).2 := by
  induction rest with
  | nil => intro seen mb ma _ h; simpa [maxAreaLoop] using h
  | cons c cs ih =>
    intro seen mb ma hnn h
    have hstep := maxAreaInv_step contourArea seen c mb ma (hnn c (List.mem_cons_self _ _)) h
    have hrest := ih (seen ++ [c]) _ _ (fun c' hc' => hnn c' (List.mem_cons_of_mem _ hc')) hstep
    simp only [List.length_append, List.length_singleton, List.append_assoc,
      List.singleton_append] at hrest
    unfold maxAreaLoop
    by_cases hgt : contourArea c > ma
    · simp only [hgt, if_true] at hrest ⊢; exact hrest
    · simp only [hgt, if_false] at hrest ⊢; exact hrest

/-- The index the loop of `thresh_callback` ends on, for a non-empty list of
contours of non-negative area: a contour of the largest area, the first one. -/
theorem maxAreaLoop_first_largest {Contour : Type} (contourArea : Contour → ℚ)
    (contours : List Contour) (hne : contours ≠ [])
    (hnn : ∀ c ∈ contours, 0 ≤ contourArea c) :
    ∃ c, contours[(maxAreaLoop contourArea contours 0 (0, 0)).1]? = some c ∧
      (∀ c' ∈ contours, contourArea c' ≤ contourArea c) ∧
      (∀ j c', j < (maxAreaLoop contourArea contours 0 (0, 0)).1 → contours[j]? = some c' →
        contourArea c' < contourArea c) := by
  have h0 : MaxAreaInv contourArea ([] : List Contour) 0 0 :=
    ⟨by simp, by simp, Or.inl ⟨rfl, rfl, rfl⟩⟩
  have h := maxAreaLoop_inv contourArea contours [] 0 0 hnn h0
  simp only [List.nil_append, List.length_nil] at h
  obtain ⟨hle, hlt, hat⟩ := h
  rcases hat with ⟨hnil, _, _⟩ | ⟨c, hc, hca⟩
  · exact absurd hnil hne
  · refine ⟨c, hc, ?_, ?_⟩
    · intro c' hc'; rw [hca]; exact hle c' hc'
    · intro j c' hj hjc; rw [hca]; exact hlt j c' hj hjc

theorem find?_of_first {α : Type} (p : α → Bool) :
    ∀ (l : List α) (i : Nat) (a : α), l[i]? = some a → p a = true →
      (∀ j b, j < i → l[j]? = some b → p b = false) → l.find? p = some a := by
  intro l
  induction l with
  | nil => intro i a h; simp at h
  | cons x xs ih =>
    intro i a h hp hfirst
    cases i with
    | zero =>
      simp only [List.getElem?_cons_zero, Option.some.injEq] at h
      subst h
      simp [List.find?, hp]
    | succ k =>
      have hx : p x = false := hfirst 0 x (Nat.succ_pos k) (by simp)
      simp only [List.getElem?_cons_succ] at h
      simp only [List.find?, hx]
      exact ih k a h hp (fun j b hj hjb => hfirst (j + 1) b (by omega) (by simpa using hjb))

/-- With at least one contour, all of non-negative area, `thresh_callback`
returns, and `imgCropped` is the crop of `imgCapture` to the rectangle of the
first contour of largest area. -/
theorem thresh_callback_running {Mat Contour Rect : Type} (cv : OpenCV Mat Contour Rect)
    (s : Session Mat) (hne : contoursOf cv s.imgCaptureGray s.thresh ≠ [])
    (hnn : ∀ c ∈ contoursOf cv s.imgCaptureGray s.thresh, 0 ≤ cv.contourArea c) :
    ∃ (i : Nat) (c : Contour), (contoursOf cv s.imgCaptureGray s.thresh)[i]? = some c ∧
      (∀ c' ∈ contoursOf cv s.imgCaptureGray s.thresh, cv.contourArea c' ≤ cv.contourArea c) ∧
      (∀ (j : Nat) (c' : Contour), j < i → (contoursOf cv s.imgCaptureGray s.thresh)[j]? = some c' →
        cv.contourArea c' < cv.contourArea c) ∧
      thresh_callback cv s = (Outcome.running,
        { s with imgCropped := cv.roi s.imgCapture (cv.boundingRect (cv.approxPolyDP c)) }) := by
  obtain ⟨c, hc, hle, hlt⟩ := maxAreaLoop_first_largest cv.contourArea
    (contoursOf cv s.imgCaptureGray s.thresh) hne hnn
  refine ⟨(maxAreaLoop cv.contourArea (contoursOf cv s.imgCaptureGray s.thresh) 0 (0, 0)).1,
    c, hc, hle, hlt, ?_⟩
  unfold thresh_callback
  simp only [List.getElem?_map, hc, Option.map_some']

theorem maxAreaLoop_fst_lt {Contour : Type} (contourArea : Contour → ℚ) (rest : List Contour) :
    ∀ (i mb : Nat) (ma : ℚ), mb < i + rest.length →
      (maxAreaLoop contourArea rest i (mb, ma)).1 < i + rest.length := by
  induction rest with
  | nil => intro i mb ma h; simpa [maxAreaLoop] using h
  | cons c cs ih =>
    intro i mb ma h
    unfold maxAreaLoop
    simp only [List.length_cons] at h ⊢
    split
    · have := ih (i + 1) i (contourArea c) (by omega)
      omega
    · have := ih (i + 1) mb ma (by omega)
      omega

/-- With at least one contour `thresh_callback` returns and writes only `imgCropped`. -/
theorem thresh_callback_returns {Mat Contour Rect : Type} (cv : OpenCV Mat Contour Rect)
    (s : Session Mat) (hne : contoursOf cv s.imgCaptureGray s.thresh ≠ []) :
    ∃ x, thresh_callback cv s = (Outcome.running, { s with imgCropped := x }) := by
  have hlt := maxAreaLoop_fst_lt cv.contourArea (contoursOf cv s.imgCaptureGray s.thresh) 0 0 0
    (by simpa using List.length_pos.mpr hne)
  simp only [Nat.zero_add] at hlt
  unfold thresh_callback
  simp only [List.getElem?_map, List.getElem?_eq_getElem hlt, Option.map_some']
  exact ⟨_, rfl⟩

/-- The crop of `thresh_callback`, run on the gray and blurred copy of the
frame it crops, is the region the specification's `segment` returns. -/
theorem thresh_callback_segment {Mat Contour Rect : Type} (cv : OpenCV Mat Contour Rect)
    (s : Session Mat) (hgray : s.imgCaptureGray = cv.blur (cv.cvtColor s.imgCapture))
    (hne : contoursOf cv s.imgCaptureGray s.thresh ≠ [])
    (hnn : ∀ c ∈ contoursOf cv s.imgCaptureGray s.thresh, 0 ≤ cv.contourArea c) :
    ∃ img, segment cv s.imgCapture s.thresh = Segmented.region img ∧
      thresh_callback cv s = (Outcome.running, { s with imgCropped := img }) := by
  obtain ⟨i, c, hc, hle, hlt, heq⟩ := thresh_callback_running cv s hne hnn
  refine ⟨_, ?_, heq⟩
  unfold segment
  rw [← hgray]
  have hfind : (contoursOf cv s.imgCaptureGray s.thresh).find?
      (fun c => (contoursOf cv s.imgCaptureGray s.thresh).all
        (fun c' => decide (cv.contourArea c' ≤ cv.contourArea c))) = some c := by
    apply find?_of_first _ _ i c hc
    · simp only [List.all_eq_true, decide_eq_true_eq]
      exact hle
    · intro j b hj hjb
      have hb := hlt j b hj hjb
      apply Bool.eq_false_iff.mpr
      intro hall
      simp only [List.all_eq_true, decide_eq_true_eq] at hall
      exact absurd (hall c (List.getElem?_mem hc)) (not_le.mpr hb)
  simp only [hfind]

/-! ### Lemmas on the frame loop -/

theorem thresh_callback_snd {Mat Contour Rect : Type} (cv : OpenCV Mat Contour Rect)
    (s : Session Mat) :
    ∃ x, (thresh_callback cv s).2 = { s with imgCropped := x } := by
  unfold thresh_callback
  simp only []
  split
  · exact ⟨s.imgCropped, rfl⟩
  · exact ⟨_, rfl⟩

theorem startCapture_snd {Mat Contour Rect : Type} (cv : OpenCV Mat Contour Rect)
    (s : Session Mat) (imgCamera : Mat) :
    ∃ x, (startCapture cv s imgCamera).2 =
      { s with
        capturing := true
        imgCapture := imgCamera
        imgCaptureGray := cv.blur (cv.cvtColor imgCamera)
        imgCropped := x } := by
  obtain ⟨x, hx⟩ := thresh_callback_snd cv
    { s with
      capturing := true
      imgCapture := imgCamera
      imgCaptureGray := cv.blur (cv.cvtColor imgCamera) }
  exact ⟨x, by rw [startCapture, hx]⟩

theorem trackbarMoves_snd {Mat Contour Rect : Type} (cv : OpenCV Mat Contour Rect)
    (moves : List Int) :
    ∀ s : Session Mat, ∃ x t, (trackbarMoves cv s moves).2 = { s with imgCropped := x, thresh := t } := by
  induction moves with
  | nil => intro s; exact ⟨s.imgCropped, s.thresh, rfl⟩
  | cons pos rest ih =>
    intro s
    obtain ⟨x, hx⟩ := thresh_callback_snd cv { s with thresh := pos }
    unfold trackbarMoves trackbarMoved
    generalize hr : thresh_callback cv { s with thresh := pos } = r at hx
    obtain ⟨o, s1⟩ := r
    simp only at hx
    subst hx
    cases o with
    | running =>
      obtain ⟨y, t, hy⟩ := ih { s with thresh := pos, imgCropped := x }
      exact ⟨y, t, by simp only [hy]⟩
    | loopLeft => exact ⟨x, pos, rfl⟩
    | outOfRange => exact ⟨x, pos, rfl⟩
    | exitFailure => exact ⟨x, pos, rfl⟩

theorem waitKey_snd {Mat Contour Rect : Type} (cv : OpenCV Mat Contour Rect)
    (s : Session Mat) (inp : Input Mat) :
    ∃ x t k, (waitKey cv s inp).2 = { s with imgCropped := x, thresh := t, keyPressed := k } ∧
      (s.capturing = false → t = s.thresh) := by
  unfold waitKey
  by_cases hc : s.capturing = true
  · have hcf : s.capturing = false → False := fun h => by rw [h] at hc; cases hc
    obtain ⟨x, t, hx⟩ := trackbarMoves_snd cv inp.trackbar s
    rw [if_pos hc]
    generalize trackbarMoves cv s inp.trackbar = r at hx
    obtain ⟨o, s1⟩ := r
    simp only at hx
    subst hx
    cases o with
    | running => exact ⟨x, t, toChar inp.key, rfl, fun h => (hcf h).elim⟩
    | loopLeft => exact ⟨x, t, s.keyPressed, rfl, fun h => (hcf h).elim⟩
    | outOfRange => exact ⟨x, t, s.keyPressed, rfl, fun h => (hcf h).elim⟩
    | exitFailure => exact ⟨x, t, s.keyPressed, rfl, fun h => (hcf h).elim⟩
  · rw [if_neg hc]
    exact ⟨s.imgCropped, s.thresh, toChar inp.key, rfl, fun _ => rfl⟩

/-- The state after the body of the loop: untouched, or after the block of
key 32, the block of key 13, or both blocks (never both: the key is one). -/
theorem loopBody_snd {Mat Contour Rect : Type} (cv : OpenCV Mat Contour Rect)
    (s : Session Mat) (inp : Input Mat) :
    (loopBody cv s inp).2 = s ∨
    (s.keyPressed = 32 ∧ ∃ imgCamera, inp.read = some imgCamera ∧
      (loopBody cv s inp).2 = (startCapture cv s imgCamera).2) ∨
    (s.keyPressed = 13 ∧ s.capturing = true ∧ (loopBody cv s inp).2 = commit s) := by
  unfold loopBody
  cases hr : inp.read with
  | none => exact Or.inl rfl
  | some imgCamera =>
    simp only []
    cases he : cv.empty imgCamera with
    | true => exact Or.inl rfl
    | false =>
      simp only [Bool.false_eq_true, if_false]
      by_cases h32 : s.keyPressed = 32
      · right; left
        refine ⟨h32, imgCamera, rfl, ?_⟩
        simp only [h32, if_true]
        obtain ⟨x, hx⟩ := startCapture_snd cv s imgCamera
        generalize startCapture cv s imgCamera = r at hx
        obtain ⟨o, s1⟩ := r
        simp only at hx
        have hk : s1.keyPressed = 32 := by rw [hx]; exact h32
        cases o <;> simp [hk]
      · simp only [h32, if_false]
        by_cases h13 : s.keyPressed = 13 ∧ s.capturing = true
        · right; right
          exact ⟨h13.1, h13.2, by simp [h13.1, h13.2]⟩
        · left
          simp only [h13, if_false]

theorem waitKey_running {Mat Contour Rect : Type} (cv : OpenCV Mat Contour Rect)
    (s s' : Session Mat) (inp : Input Mat) (h : waitKey cv s inp = (Outcome.running, s')) :
    ∃ x t, s' = { s with imgCropped := x, thresh := t, keyPressed := toChar inp.key } := by
  unfold waitKey at h
  by_cases hc : s.capturing = true
  · obtain ⟨x, t, hx⟩ := trackbarMoves_snd cv inp.trackbar s
    rw [if_pos hc] at h
    generalize trackbarMoves cv s inp.trackbar = r at hx h
    obtain ⟨o, s1⟩ := r
    simp only at hx
    subst hx
    cases o <;> simp at h
    exact ⟨x, t, h.symm⟩
  · rw [if_neg hc] at h
    simp only [Prod.mk.injEq, true_and] at h
    exact ⟨s.imgCropped, s.thresh, h.symm⟩

theorem iteration_running {Mat Contour Rect : Type} (cv : OpenCV Mat Contour Rect)
    (s s' : Session Mat) (inp : Input Mat) (h : iteration cv s inp = (Outcome.running, s')) :
    ∃ s1, loopBody cv s inp = (Outcome.running, s1) ∧ waitKey cv s1 inp = (Outcome.running, s') := by
  unfold iteration at h
  split at h
  · generalize loopBody cv s inp = r at h
    obtain ⟨o, s1⟩ := r
    cases o <;> simp at h
    exact ⟨s1, rfl, h⟩
  · simp at h

theorem loopBody_running {Mat Contour Rect : Type} (cv : OpenCV Mat Contour Rect)
    (s s1 : Session Mat) (inp : Input Mat) (h : loopBody cv s inp = (Outcome.running, s1)) :
    (s.keyPressed = 32 ∧ ∃ imgCamera x, inp.read = some imgCamera ∧
      s1 = { s with
        capturing := true
        imgCapture := imgCamera
        imgCaptureGray := cv.blur (cv.cvtColor imgCamera)
        imgCropped := x }) ∨
    (s.keyPressed = 13 ∧ s.capturing = true ∧ s1 = commit s) ∨
    (s.keyPressed ≠ 32 ∧ ¬(s.keyPressed = 13 ∧ s.capturing = true) ∧ s1 = s) := by
  unfold loopBody at h
  cases hr : inp.read with
  | none => rw [hr] at h; simp at h
  | some imgCamera =>
    rw [hr] at h
    simp only [] at h
    cases he : cv.empty imgCamera with
    | true => rw [he] at h; simp at h
    | false =>
      rw [he] at h
      simp only [Bool.false_eq_true, if_false] at h
      by_cases h32 : s.keyPressed = 32
      · left
        refine ⟨h32, imgCamera, ?_⟩
        simp only [h32, if_true] at h
        obtain ⟨x, hx⟩ := startCapture_snd cv s imgCamera
        generalize startCapture cv s imgCamera = r at hx h
        obtain ⟨o, s0⟩ := r
        simp only at hx
        have hk : s0.keyPressed = 32 := by rw [hx]; exact h32
        cases o <;> simp [hk] at h
        exact ⟨x, rfl, by rw [← h.2, hx]⟩
      · simp only [h32, if_false] at h
        by_cases h13 : s.keyPressed = 13 ∧ s.capturing = true
        · right; left
          simp only [h13.1, h13.2, and_self, if_true, Prod.mk.injEq] at h
          exact ⟨h13.1, h13.2, h.2.symm⟩
        · right; right
          simp only [h13, if_false, Prod.mk.injEq] at h
          exact ⟨h32, h13, h.2.symm⟩

/-- A pass that handles key 32, or any key but 13 while capturing, and leaves
the loop going: still capturing, same captured images, the polled key stored. -/
theorem iteration_preview {Mat Contour Rect : Type} (cv : OpenCV Mat Contour Rect)
    (s s' : Session Mat) (inp : Input Mat)
    (hprev : s.keyPressed = 32 ∨ s.capturing = true) (h13 : s.keyPressed ≠ 13)
    (h : iteration cv s inp = (Outcome.running, s')) :
    s'.capturing = true ∧ s'.capturedImgs = s.capturedImgs ∧ s'.keyPressed = toChar inp.key := by
  obtain ⟨s1, hb, hw⟩ := iteration_running cv s s' inp h
  obtain ⟨x, t, hs'⟩ := waitKey_running cv s1 s' inp hw
  subst hs'
  rcases loopBody_running cv s s1 inp hb with ⟨_, f, y, _, hs1⟩ | ⟨hk, _, _⟩ | ⟨h32, _, hs1⟩
  · subst hs1; exact ⟨rfl, rfl, rfl⟩
  · exact absurd hk h13
  · subst hs1
    rcases hprev with hk | hc
    · exact absurd hk h32
    · exact ⟨hc, rfl, rfl⟩

/-- A pass that handles key 13 while capturing and leaves the loop going. -/
theorem iteration_commit {Mat Contour Rect : Type} (cv : OpenCV Mat Contour Rect)
    (s s' : Session Mat) (inp : Input Mat)
    (hk : s.keyPressed = 13) (hc : s.capturing = true)
    (h : iteration cv s inp = (Outcome.running, s')) :
    s'.capturing = false ∧ s'.capturedImgs = s.capturedImgs ++ [s.imgCropped] ∧
      s'.thresh = 100 := by
  obtain ⟨s1, hb, hw⟩ := iteration_running cv s s' inp h
  rcases loopBody_running cv s s1 inp hb with ⟨h32, _⟩ | ⟨_, _, hs1⟩ | ⟨_, hn, _⟩
  · rw [hk] at h32; cases h32
  · subst hs1
    obtain ⟨x, t, k, hs', ht⟩ := waitKey_snd cv (commit s) inp
    rw [hw] at hs'
    simp only at hs'
    subst hs'
    exact ⟨rfl, rfl, ht rfl⟩
  · exact absurd ⟨hk, hc⟩ hn

theorem whileLoop_append {Mat Contour Rect : Type} (cv : OpenCV Mat Contour Rect)
    (a b : List (Input Mat)) :
    ∀ (s s' : Session Mat), whileLoop cv s (a ++ b) = (Outcome.running, s') →
      ∃ s1, whileLoop cv s a = (Outcome.running, s1) ∧
        whileLoop cv s1 b = (Outcome.running, s') := by
  induction a with
  | nil => intro s s' h; exact ⟨s, rfl, h⟩
  | cons inp rest ih =>
    intro s s' h
    simp only [List.cons_append, whileLoop] at h ⊢
    generalize iteration cv s inp = r at h ⊢
    obtain ⟨o, s0⟩ := r
    cases o <;> simp at h
    exact ih s0 s' h

/-- Passes that poll anything but key 13, started with key 32 pending or while
capturing: if the loop is still going after them, the session is capturing
with the captured images it had, and the last polled key is stored. -/
theorem whileLoop_preview {Mat Contour Rect : Type} (cv : OpenCV Mat Contour Rect)
    (front : List (Input Mat)) :
    ∀ (s s' : Session Mat) (c : Input Mat),
      (s.keyPressed = 32 ∨ s.capturing = true) → s.keyPressed ≠ 13 →
      (∀ inp ∈ front, toChar inp.key ≠ 13) →
      whileLoop cv s (front ++ [c]) = (Outcome.running, s') →
      s'.capturing = true ∧ s'.capturedImgs = s.capturedImgs ∧ s'.keyPressed = toChar c.key := by
  induction front with
  | nil =>
    intro s s' c hprev h13 _ h
    simp only [List.nil_append, whileLoop] at h
    generalize hr : iteration cv s c = r at h
    obtain ⟨o, s0⟩ := r
    cases o <;> simp at h
    subst h
    exact iteration_preview cv s s0 c hprev h13 hr
  | cons inp rest ih =>
    intro s s' c hprev h13 hfront h
    simp only [List.cons_append, whileLoop] at h
    generalize hr : iteration cv s inp = r at h
    obtain ⟨o, s0⟩ := r
    cases o <;> simp at h
    obtain ⟨hc0, himgs0, hk0⟩ := iteration_preview cv s s0 inp hprev h13 hr
    have hk13 : s0.keyPressed ≠ 13 := by
      rw [hk0]; exact hfront inp (List.mem_cons_self _ _)
    obtain ⟨hc', himgs', hk'⟩ := ih s0 s' c (Or.inr hc0) hk13
      (fun i hi => hfront i (List.mem_cons_of_mem _ hi)) h
    exact ⟨hc', himgs'.trans himgs0, hk'⟩

/-- The state a pass of the loop ends in: the one it began in, or the one
after the body with at most `imgCropped`, `thresh` and `keyPressed` rewritten
by `waitKey`. -/
theorem iteration_snd {Mat Contour Rect : Type} (cv : OpenCV Mat Contour Rect)
    (s : Session Mat) (inp : Input Mat) :
    (iteration cv s inp).2 = s ∨
    ∃ x t k, (iteration cv s inp).2 =
      { (loopBody cv s inp).2 with imgCropped := x, thresh := t, keyPressed := k } ∧
      ((loopBody cv s inp).2.capturing = false → t = (loopBody cv s inp).2.thresh) := by
  unfold iteration
  split
  · right
    generalize loopBody cv s inp = r
    obtain ⟨o, s1⟩ := r
    cases o with
    | running => exact waitKey_snd cv s1 inp
    | loopLeft => exact ⟨s1.imgCropped, s1.thresh, s1.keyPressed, rfl, fun _ => rfl⟩
    | outOfRange => exact ⟨s1.imgCropped, s1.thresh, s1.keyPressed, rfl, fun _ => rfl⟩
    | exitFailure => exact ⟨s1.imgCropped, s1.thresh, s1.keyPressed, rfl, fun _ => rfl⟩
  · exact Or.inl rfl

/-- The body of the loop on key 13 while capturing, the frame read. -/
theorem loopBody_commit {Mat Contour Rect : Type} (cv : OpenCV Mat Contour Rect)
    (s : Session Mat) (inp : Input Mat) (imgCamera : Mat)
    (hk : s.keyPressed = 13) (hc : s.capturing = true)
    (hread : inp.read = some imgCamera) (hne : cv.empty imgCamera = false) :
    loopBody cv s inp = (matchLoop cv imgCamera (commit s).capturedImgs, commit s) := by
  unfold loopBody
  simp [hread, hne, hk, hc]

/-- The body of the loop on key 32, the frame read and with a contour. -/
theorem loopBody_start {Mat Contour Rect : Type} (cv : OpenCV Mat Contour Rect)
    (s : Session Mat) (inp : Input Mat) (imgCamera : Mat)
    (hk : s.keyPressed = 32)
    (hread : inp.read = some imgCamera) (hne : cv.empty imgCamera = false)
    (hcont : contoursOf cv (cv.blur (cv.cvtColor imgCamera)) s.thresh ≠ []) :
    ∃ x, startCapture cv s imgCamera = (Outcome.running,
        { s with
          capturing := true
          imgCapture := imgCamera
          imgCaptureGray := cv.blur (cv.cvtColor imgCamera)
          imgCropped := x }) ∧
      loopBody cv s inp = (matchLoop cv imgCamera s.capturedImgs,
        { s with
          capturing := true
          imgCapture := imgCamera
          imgCaptureGray := cv.blur (cv.cvtColor imgCamera)
          imgCropped := x }) := by
  obtain ⟨x, hx⟩ := thresh_callback_returns cv
    { s with
      capturing := true
      imgCapture := imgCamera
      imgCaptureGray := cv.blur (cv.cvtColor imgCamera) } hcont
  have hs : startCapture cv s imgCamera = (Outcome.running,
        { s with
          capturing := true
          imgCapture := imgCamera
          imgCaptureGray := cv.blur (cv.cvtColor imgCamera)
          imgCropped := x }) := by
    rw [startCapture, hx]
  refine ⟨x, hs, ?_⟩
  unfold loopBody
  simp [hread, hne, hk, hs]

/-- The pass that handles key 32 and polls key 13 followed by the pass that
handles key 13: the loop goes on through both when both frames are read, the
first has a contour at the current threshold, the trackbar is not moved, and
`match` returns for the captured images, the new one included. -/
theorem whileLoop_start_commit_goes_on {Mat Contour Rect : Type}
    (cv : OpenCV Mat Contour Rect) (s : Session Mat) (c last : Input Mat)
    (imgCamera1 imgCamera2 : Mat)
    (hkey : s.keyPressed = 32) (hc : toChar c.key = 13)
    (hopen1 : c.isOpened = true) (hread1 : c.read = some imgCamera1)
    (hne1 : cv.empty imgCamera1 = false)
    (hcont : contoursOf cv (cv.blur (cv.cvtColor imgCamera1)) s.thresh ≠ [])
    (hmatch1 : matchLoop cv imgCamera1 s.capturedImgs = Outcome.running)
    (htrack : c.trackbar = [])
    (hopen2 : last.isOpened = true) (hread2 : last.read = some imgCamera2)
    (hne2 : cv.empty imgCamera2 = false)
    (hmatch2 : matchLoop cv imgCamera2
      (s.capturedImgs ++ [(startCapture cv s imgCamera1).2.imgCropped]) = Outcome.running) :
    (whileLoop cv s ([c] ++ [last])).1 = Outcome.running := by
  obtain ⟨x, hs, hb⟩ := loopBody_start cv s c imgCamera1 hkey hread1 hne1 hcont
  rw [hs] at hmatch2
  have h27 : s.keyPressed ≠ 27 := by rw [hkey]; decide
  have hit1 : iteration cv s c = (Outcome.running,
      { s with
        capturing := true
        imgCapture := imgCamera1
        imgCaptureGray := cv.blur (cv.cvtColor imgCamera1)
        imgCropped := x
        keyPressed := 13 }) := by
    unfold iteration
    rw [if_pos ⟨h27, hopen1⟩, hb, hmatch1]
    simp [waitKey, htrack, trackbarMoves, hc]
  have hb2 := loopBody_commit cv
      { s with
        capturing := true
        imgCapture := imgCamera1
        imgCaptureGray := cv.blur (cv.cvtColor imgCamera1)
        imgCropped := x
        keyPressed := 13 } last imgCamera2 rfl rfl hread2 hne2
  have hit2 : (iteration cv
      { s with
        capturing := true
        imgCapture := imgCamera1
        imgCaptureGray := cv.blur (cv.cvtColor imgCamera1)
        imgCropped := x
        keyPressed := 13 } last).1 = Outcome.running := by
    unfold iteration
    rw [if_pos ⟨by simp, hopen2⟩, hb2]
    simp only [commit]
    rw [hmatch2]
    simp [waitKey]
  simp only [List.singleton_append, whileLoop, hit1]
  generalize iteration cv
      { s with
        capturing := true
        imgCapture := imgCamera1
        imgCaptureGray := cv.blur (cv.cvtColor imgCamera1)
        imgCropped := x
        keyPressed := 13 } last = r at hit2
  obtain ⟨o, s2⟩ := r
  simp only at hit2
  subst hit2
  rfl

/-! ## The claims on `match` -/

/-- C2: when every match distance is `<= 0.02` (in particular when every one
is `0`, as for two identical images), `match` returns `descriptors_1.rows`:
no match is filtered out. -/
theorem match_all_within_floor {Mat Contour Rect : Type} (cv : OpenCV Mat Contour Rect)
    (img_1 img_2 : Mat)
    (h1 : cv.hasData img_1 = true) (h2 : cv.hasData img_2 = true)
    (hrows : cv.descriptorRows img_1 = (cv.matchDistances img_1 img_2).length)
    (hall : ∀ d ∈ cv.matchDistances img_1 img_2, d ≤ 1 / 50) :
    match_ cv img_1 img_2 = (Outcome.running, some (cv.descriptorRows img_1)) := by
  rw [match_eq cv img_1 img_2 h1 h2 hrows, hrows]
  congr 2
  rw [List.countP_eq_length]
  intro d hd
  exact decide_eq_true (le_trans (hall d hd) (le_max_right _ _))

/-- C10: for a list of match distances (one per query descriptor, both images
with data) whose least element `m` lies in `[0, 100]`, `match` returns the
number of distances `<= max(2 * m, 0.02)`, and that number is at least `1`;
and whenever `match` returns anything else than that number, every distance
exceeds `100`. -/
theorem match_count_min_within_100 {Mat Contour Rect : Type} (cv : OpenCV Mat Contour Rect)
    (img_1 img_2 : Mat) (m : ℚ)
    (h1 : cv.hasData img_1 = true) (h2 : cv.hasData img_2 = true)
    (hrows : cv.descriptorRows img_1 = (cv.matchDistances img_1 img_2).length)
    (hm : m ∈ cv.matchDistances img_1 img_2)
    (hmin : ∀ d ∈ cv.matchDistances img_1 img_2, m ≤ d) :
    (0 ≤ m → m ≤ 100 →
      match_ cv img_1 img_2 = (Outcome.running, some ((cv.matchDistances img_1 img_2).countP
        (fun d => decide (d ≤ max (2 * m) (1 / 50))))) ∧
      1 ≤ (cv.matchDistances img_1 img_2).countP
        (fun d => decide (d ≤ max (2 * m) (1 / 50)))) ∧
    (match_ cv img_1 img_2 ≠ (Outcome.running, some ((cv.matchDistances img_1 img_2).countP
        (fun d => decide (d ≤ max (2 * m) (1 / 50))))) →
      ∀ d ∈ cv.matchDistances img_1 img_2, 100 < d) := by
  have key : m ≤ 100 →
      match_ cv img_1 img_2 = (Outcome.running, some ((cv.matchDistances img_1 img_2).countP
        (fun d => decide (d ≤ max (2 * m) (1 / 50))))) := by
    intro h100
    have hleast : minDistAfter (cv.matchDistances img_1 img_2) = m := by
      apply minDistAfter_unique _ m (List.mem_cons_of_mem _ hm)
      intro d hd
      rcases List.mem_cons.mp hd with rfl | hd
      · exact h100
      · exact hmin d hd
    rw [match_eq cv img_1 img_2 h1 h2 hrows, hleast]
  refine ⟨fun h0 h100 => ⟨key h100, ?_⟩, ?_⟩
  · apply List.countP_pos_iff.mpr
    refine ⟨m, hm, decide_eq_true ?_⟩
    exact le_trans (by linarith) (le_max_left _ _)
  · intro hne d hd
    by_contra hle
    exact hne (key (le_trans (hmin d hd) (not_lt.mp hle)))

theorem match_all_within_floor_witness :
    match_ blobCV [0, 0, 0] [0, 0, 0] = (Outcome.running, some 3) :=
  match_all_within_floor blobCV [0, 0, 0] [0, 0, 0] rfl rfl (by simp [blobCV])
    (by norm_num [blobCV])

theorem match_count_min_within_100_witness :
    match_ blobCV [3, 1, 2] [1] = (Outcome.running,
      some ((blobCV.matchDistances [3, 1, 2] [1]).countP (fun d => decide (d ≤ max (2 * 1) (1 / 50))))) ∧
    1 ≤ (blobCV.matchDistances [3, 1, 2] [1]).countP (fun d => decide (d ≤ max (2 * 1) (1 / 50))) :=
  (match_count_min_within_100 blobCV [3, 1, 2] [1] 1 rfl rfl (by simp [blobCV])
    (by simp [blobCV]) (by norm_num [blobCV])).1 (by norm_num) (by norm_num)

/-! ## The claims on `thresh_callback` -/

/-- C5: for a non-empty list of contours of non-negative area, `thresh_callback`
returns with `imgCropped` the crop of the captured frame to the bounding
rectangle of the contour at index `i` (the rectangle line 152 stores for it, that
of its polygon), where `contours[i]` has the largest raw contour area of the
list and every contour before it has a strictly smaller area (the lowest index
among those of largest area). -/
theorem thresh_callback_crops_first_largest {Mat Contour Rect : Type}
    (cv : OpenCV Mat Contour Rect) (s : Session Mat)
    (hne : contoursOf cv s.imgCaptureGray s.thresh ≠ [])
    (hnn : ∀ c ∈ contoursOf cv s.imgCaptureGray s.thresh, 0 ≤ cv.contourArea c) :
    ∃ (i : Nat) (c : Contour), (contoursOf cv s.imgCaptureGray s.thresh)[i]? = some c ∧
      (∀ c' ∈ contoursOf cv s.imgCaptureGray s.thresh, cv.contourArea c' ≤ cv.contourArea c) ∧
      (∀ (j : Nat) (c' : Contour), j < i → (contoursOf cv s.imgCaptureGray s.thresh)[j]? = some c' →
        cv.contourArea c' < cv.contourArea c) ∧
      thresh_callback cv s = (Outcome.running,
        { s with imgCropped := cv.roi s.imgCapture (cv.boundingRect (cv.approxPolyDP c)) }) :=
  thresh_callback_running cv s hne hnn

theorem thresh_callback_crops_first_largest_witness :
    ∃ (i : Nat) (c : Nat), (contoursOf blobCV [120, 300, 300, 90] 100)[i]? = some c ∧
      (∀ c' ∈ contoursOf blobCV [120, 300, 300, 90] 100, blobCV.contourArea c' ≤ blobCV.contourArea c) ∧
      (∀ (j : Nat) (c' : Nat), j < i → (contoursOf blobCV [120, 300, 300, 90] 100)[j]? = some c' →
        blobCV.contourArea c' < blobCV.contourArea c) ∧
      thresh_callback blobCV (previewSession 100) = (Outcome.running,
        { (previewSession 100) with
          imgCropped := (blobCV.roi [120, 300, 300, 90] (blobCV.boundingRect (blobCV.approxPolyDP c))) }) :=
  thresh_callback_crops_first_largest blobCV (previewSession 100) (by decide)
    (by intro c _; exact Nat.cast_nonneg c)

/-- C6, what the code does: when the thresholded image yields no contour,
`thresh_callback` reads `boundRect[0]` of an empty vector, an out-of-range
access, and reports nothing. -/
theorem thresh_callback_no_contour {Mat Contour Rect : Type}
    (cv : OpenCV Mat Contour Rect) (s : Session Mat)
    (hnil : contoursOf cv s.imgCaptureGray s.thresh = []) :
    thresh_callback cv s = (Outcome.outOfRange, s) := by
  unfold thresh_callback
  rw [hnil]
  rfl

theorem thresh_callback_no_contour_witness :
    thresh_callback blobCV (previewSession 400) = (Outcome.outOfRange, previewSession 400) :=
  thresh_callback_no_contour blobCV (previewSession 400) (by decide)

/-! ## The claims on the frame loop -/

/-- C3: from a session that is not capturing and has key 32 pending, let the
loop make the pass that handles key 32, then any passes that poll anything but
key 13 (each with any frame and any trackbar moves), then the pass that handles
key 13.  Whenever the loop is still going after these passes (no failed read,
no Esc, no out-of-range read, no `exit`), the session is not capturing and the
captured images are the former ones followed by exactly one more.  And the
loop is still going after them when there is no pass in between, both frames
are read, the first has a contour at the current threshold, the trackbar is
not moved and `match` returns for the captured images, the new one included. -/
theorem start_then_commit {Mat Contour Rect : Type} (cv : OpenCV Mat Contour Rect)
    (s : Session Mat) (front : List (Input Mat)) (c last : Input Mat)
    (_hidle : s.capturing = false) (hkey : s.keyPressed = 32)
    (hfront : ∀ inp ∈ front, toChar inp.key ≠ 13) (hc : toChar c.key = 13) :
    (∀ s', whileLoop cv s (front ++ [c] ++ [last]) = (Outcome.running, s') →
      s'.capturing = false ∧ s'.capturedImgs.length = s.capturedImgs.length + 1 ∧
      ∃ img, s'.capturedImgs = s.capturedImgs ++ [img]) ∧
    (∀ imgCamera1 imgCamera2, front = [] →
      c.isOpened = true → c.read = some imgCamera1 → cv.empty imgCamera1 = false →
      contoursOf cv (cv.blur (cv.cvtColor imgCamera1)) s.thresh ≠ [] →
      matchLoop cv imgCamera1 s.capturedImgs = Outcome.running →
      c.trackbar = [] →
      last.isOpened = true → last.read = some imgCamera2 → cv.empty imgCamera2 = false →
      matchLoop cv imgCamera2
        (s.capturedImgs ++ [(startCapture cv s imgCamera1).2.imgCropped]) = Outcome.running →
      (whileLoop cv s (front ++ [c] ++ [last])).1 = Outcome.running) := by
  constructor
  · intro s' hrun
    obtain ⟨s1, h1, h2⟩ := whileLoop_append cv (front ++ [c]) [last] s s' hrun
    have hk13 : s.keyPressed ≠ 13 := by rw [hkey]; decide
    obtain ⟨hc1, himgs1, hk1⟩ := whileLoop_preview cv front s s1 c (Or.inl hkey) hk13 hfront h1
    simp only [whileLoop] at h2
    generalize hr : iteration cv s1 last = r at h2
    obtain ⟨o, s2⟩ := r
    cases o <;> simp at h2
    subst h2
    obtain ⟨hcap, himgs, _⟩ := iteration_commit cv s1 s2 last (hk1.trans hc) hc1 hr
    rw [himgs1] at himgs
    exact ⟨hcap, by rw [himgs]; simp, s1.imgCropped, himgs⟩
  · intro imgCamera1 imgCamera2 hnil hopen1 hread1 hne1 hcont hmatch1 htrack hopen2 hread2 hne2
      hmatch2
    subst hnil
    exact whileLoop_start_commit_goes_on cv s c last imgCamera1 imgCamera2 hkey hc hopen1 hread1
      hne1 hcont hmatch1 htrack hopen2 hread2 hne2 hmatch2

/-- C7: in a session that is capturing, the pass that handles key 32 on a
frame that is read and has a contour at the current threshold, with `match`
returning for every captured image, goes on (the loop is not left), and after
it and after its `waitKey` the captured images are as they were, the session
is still capturing, and `imgCapture` is the frame just read. -/
theorem retrigger_keeps_snapshots {Mat Contour Rect : Type} (cv : OpenCV Mat Contour Rect)
    (s : Session Mat) (inp : Input Mat) (imgCamera : Mat)
    (_hcap : s.capturing = true) (hkey : s.keyPressed = 32)
    (hopen : inp.isOpened = true)
    (hread : inp.read = some imgCamera) (hne : cv.empty imgCamera = false)
    (hcont : contoursOf cv (cv.blur (cv.cvtColor imgCamera)) s.thresh ≠ [])
    (hmatch : matchLoop cv imgCamera s.capturedImgs = Outcome.running) :
    (loopBody cv s inp).1 = Outcome.running ∧
    (loopBody cv s inp).2.capturedImgs = s.capturedImgs ∧
    (loopBody cv s inp).2.capturing = true ∧
    (loopBody cv s inp).2.imgCapture = imgCamera ∧
    (iteration cv s inp).2.capturedImgs = s.capturedImgs ∧
    (iteration cv s inp).2.capturing = true ∧
    (iteration cv s inp).2.imgCapture = imgCamera := by
  obtain ⟨x, _, hb⟩ := loopBody_start cv s inp imgCamera hkey hread hne hcont
  have hit : iteration cv s inp = waitKey cv (loopBody cv s inp).2 inp := by
    unfold iteration
    rw [if_pos ⟨by rw [hkey]; decide, hopen⟩, hb, hmatch]
  obtain ⟨y, t, k, hw, _⟩ := waitKey_snd cv (loopBody cv s inp).2 inp
  rw [hit, hw, hb, hmatch]
  exact ⟨rfl, rfl, rfl, rfl, rfl, rfl, rfl⟩

/-- C8: whatever the session, the frame and the keys, one pass of the loop
leaves the captured images it began with as the beginning of those it ends
with, and ends with at most one more. -/
theorem iteration_snapshots_grow {Mat Contour Rect : Type} (cv : OpenCV Mat Contour Rect)
    (s : Session Mat) (inp : Input Mat) :
    s.capturedImgs <+: (iteration cv s inp).2.capturedImgs ∧
    (iteration cv s inp).2.capturedImgs.length ≤ s.capturedImgs.length + 1 := by
  have hbody : (loopBody cv s inp).2.capturedImgs = s.capturedImgs ∨
      (loopBody cv s inp).2.capturedImgs = s.capturedImgs ++ [s.imgCropped] := by
    rcases loopBody_snd cv s inp with h | ⟨_, f, _, h⟩ | ⟨_, _, h⟩
    · left; rw [h]
    · left
      obtain ⟨x, hx⟩ := startCapture_snd cv s f
      rw [h, hx]
    · right; rw [h]; rfl
  have hit : (iteration cv s inp).2.capturedImgs = s.capturedImgs ∨
      (iteration cv s inp).2.capturedImgs = s.capturedImgs ++ [s.imgCropped] := by
    rcases iteration_snd cv s inp with h | ⟨x, t, k, h, _⟩
    · left; rw [h]
    · rw [h]; exact hbody
  rcases hit with h | h
  · rw [h]; exact ⟨List.prefix_refl _, Nat.le_succ _⟩
  · rw [h]; exact ⟨List.prefix_append _ _, by simp⟩

/-- C9, as stated, fails on the cancel: in a capturing session whose threshold
was moved to 180, the pass that handles key 32 goes on and leaves the threshold
at 180, not 100. -/
theorem thresh_reset_counterexample :
    retriggerSession.capturing = true ∧ retriggerSession.keyPressed = 32 ∧
    retriggerSession.thresh = 180 ∧
    (iteration blobCV retriggerSession ⟨true, some [120, 300], [], -1⟩).1 = Outcome.running ∧
    (iteration blobCV retriggerSession ⟨true, some [120, 300], [], -1⟩).2.capturing = true ∧
    (iteration blobCV retriggerSession ⟨true, some [120, 300], [], -1⟩).2.thresh = 180 ∧
    (iteration blobCV retriggerSession ⟨true, some [120, 300], [], -1⟩).2.thresh ≠ 100 := by
  decide

/-- C9, amended: the pass that handles key 13 while capturing, its frame read,
ends with the threshold at 100 and the session not capturing, whatever the
threshold was and whatever the trackbar does; the body of a pass that handles
key 32 leaves the threshold at the value it had. -/
theorem thresh_reset_on_commit {Mat Contour Rect : Type} (cv : OpenCV Mat Contour Rect)
    (s : Session Mat) (inp : Input Mat) :
    (∀ imgCamera, s.capturing = true → s.keyPressed = 13 → inp.isOpened = true →
      inp.read = some imgCamera → cv.empty imgCamera = false →
      (iteration cv s inp).2.thresh = 100 ∧ (iteration cv s inp).2.capturing = false) ∧
    (s.keyPressed = 32 → (loopBody cv s inp).2.thresh = s.thresh) := by
  constructor
  · intro imgCamera hc hk hopen hread hne
    have hb := loopBody_commit cv s inp imgCamera hk hc hread hne
    rcases iteration_snd cv s inp with h | ⟨x, t, k, h, ht⟩
    · exfalso
      have h27 : s.keyPressed ≠ 27 := by rw [hk]; decide
      have hcap : (iteration cv s inp).2.capturing = false := by
        unfold iteration
        rw [if_pos ⟨h27, hopen⟩, hb]
        generalize matchLoop cv imgCamera (commit s).capturedImgs = o
        cases o with
        | running =>
          obtain ⟨y, u, l, hw, _⟩ := waitKey_snd cv (commit s) inp
          simp only [hw]; rfl
        | loopLeft => rfl
        | outOfRange => rfl
        | exitFailure => rfl
      rw [h, hc] at hcap
      cases hcap
    · rw [h, hb]
      rw [hb] at ht
      exact ⟨ht rfl, rfl⟩
  · intro hk
    rcases loopBody_snd cv s inp with h | ⟨_, f, _, h⟩ | ⟨h13, _, _⟩
    · rw [h]
    · obtain ⟨x, hx⟩ := startCapture_snd cv s f
      rw [h, hx]
    · rw [hk] at h13; cases h13

theorem start_then_commit_witness :
    ((whileLoop blobCV idleSession
      ([⟨true, some [120, 300], [150], -1⟩] ++ [⟨true, some [50, 60], [], 13⟩]
        ++ [⟨true, some [9], [], -1⟩])).2.capturing = false ∧
    (whileLoop blobCV idleSession
      ([⟨true, some [120, 300], [150], -1⟩] ++ [⟨true, some [50, 60], [], 13⟩]
        ++ [⟨true, some [9], [], -1⟩])).2.capturedImgs.length = idleSession.capturedImgs.length + 1 ∧
    ∃ img, (whileLoop blobCV idleSession
      ([⟨true, some [120, 300], [150], -1⟩] ++ [⟨true, some [50, 60], [], 13⟩]
        ++ [⟨true, some [9], [], -1⟩])).2.capturedImgs = idleSession.capturedImgs ++ [img]) ∧
    (whileLoop blobCV idleSession
      ([] ++ [⟨true, some [120, 300], [], 13⟩] ++ [⟨true, some [9], [], -1⟩])).1 = Outcome.running :=
  ⟨(start_then_commit blobCV idleSession [⟨true, some [120, 300], [150], -1⟩]
      ⟨true, some [50, 60], [], 13⟩ ⟨true, some [9], [], -1⟩ rfl rfl (by decide) (by decide)).1 _
      (by decide),
    (start_then_commit blobCV idleSession [] ⟨true, some [120, 300], [], 13⟩
      ⟨true, some [9], [], -1⟩ rfl rfl (by decide) (by decide)).2 [120, 300] [9] rfl rfl rfl rfl
      (by decide) (by decide) rfl rfl rfl rfl (by decide)⟩

theorem retrigger_keeps_snapshots_witness :
    (loopBody blobCV retriggerSession ⟨true, some [120, 300, 200], [], -1⟩).1 = Outcome.running ∧
    (loopBody blobCV retriggerSession ⟨true, some [120, 300, 200], [], -1⟩).2.capturedImgs = [[7]] ∧
    (loopBody blobCV retriggerSession ⟨true, some [120, 300, 200], [], -1⟩).2.capturing = true ∧
    (loopBody blobCV retriggerSession ⟨true, some [120, 300, 200], [], -1⟩).2.imgCapture
      = [120, 300, 200] ∧
    (iteration blobCV retriggerSession ⟨true, some [120, 300, 200], [], -1⟩).2.capturedImgs = [[7]] ∧
    (iteration blobCV retriggerSession ⟨true, some [120, 300, 200], [], -1⟩).2.capturing = true ∧
    (iteration blobCV retriggerSession ⟨true, some [120, 300, 200], [], -1⟩).2.imgCapture
      = [120, 300, 200] :=
  retrigger_keeps_snapshots blobCV retriggerSession ⟨true, some [120, 300, 200], [], -1⟩
    [120, 300, 200] rfl rfl rfl rfl rfl (by decide) (by decide)

theorem thresh_reset_on_commit_witness :
    (iteration blobCV commitSession ⟨true, some [120, 300], [250, 30], 32⟩).2.thresh = 100 ∧
    (iteration blobCV commitSession ⟨true, some [120, 300], [250, 30], 32⟩).2.capturing = false :=
  (thresh_reset_on_commit blobCV commitSession ⟨true, some [120, 300], [250, 30], 32⟩).1
    [120, 300] rfl rfl rfl rfl rfl

/-- C4: the run of `main` that reads `frame1` and polls key 32, reads `frame2`,
equal to `frame1`, and polls key 13, then reads any `frame3` and polls any key
(the pass in which the commit is done), no trackbar move, goes on and ends
with exactly one captured image, the region `segment(frame1, 100)` of the
specification; `frame1` is read, has a contour at threshold 100, the contour
areas are non-negative, and `match` returns on `frame3` and that region. -/
theorem scripted_run_snapshot {Mat Contour Rect : Type} (cv : OpenCV Mat Contour Rect)
    (frame1 frame2 frame3 : Mat) (k : Int)
    (h12 : frame2 = frame1)
    (he1 : cv.empty frame1 = false) (he3 : cv.empty frame3 = false)
    (hne : contoursOf cv (cv.blur (cv.cvtColor frame1)) 100 ≠ [])
    (hnn : ∀ c ∈ contoursOf cv (cv.blur (cv.cvtColor frame1)) 100, 0 ≤ cv.contourArea c)
    (hmatch : ∀ img, segment cv frame1 100 = Segmented.region img →
      (match_ cv frame3 img).1 = Outcome.running) :
    ∃ img, segment cv frame1 100 = Segmented.region img ∧
      (main cv true [⟨true, some frame1, [], 32⟩, ⟨true, some frame2, [], 13⟩,
        ⟨true, some frame3, [], k⟩]).1 = Outcome.running ∧
      (main cv true [⟨true, some frame1, [], 32⟩, ⟨true, some frame2, [], 13⟩,
        ⟨true, some frame3, [], k⟩]).2.capturedImgs = [img] := by
  subst h12
  obtain ⟨img, hseg, htc⟩ := thresh_callback_segment cv
    { keyPressed := 32
      capturing := true
      capturedImgs := []
      imgCropped := cv.emptyMat
      imgCapture := frame2
      imgCaptureGray := cv.blur (cv.cvtColor frame2)
      thresh := 100 } rfl hne hnn
  refine ⟨img, hseg, ?_⟩
  have hm := hmatch img hseg
  have h32 : toChar 32 = 32 := by decide
  have h13 : toChar 13 = 13 := by decide
  simp [main, whileLoop, iteration, loopBody, waitKey, startCapture, trackbarMoves, commit,
    matchLoop, initialSession, he1, he3, h32, h13, htc, hm]

theorem scripted_run_snapshot_witness :
    ∃ img, segment blobCV [120, 300, 90] 100 = Segmented.region img ∧
      (main blobCV true [⟨true, some [120, 300, 90], [], 32⟩, ⟨true, some [120, 300, 90], [], 13⟩,
        ⟨true, some [7], [], -1⟩]).1 = Outcome.running ∧
      (main blobCV true [⟨true, some [120, 300, 90], [], 32⟩, ⟨true, some [120, 300, 90], [], 13⟩,
        ⟨true, some [7], [], -1⟩]).2.capturedImgs = [img] :=
  scripted_run_snapshot blobCV [120, 300, 90] [120, 300, 90] [7] (-1) rfl rfl rfl (by decide)
    (by intro c _; exact Nat.cast_nonneg c)
    (by
      intro img h
      have hseg : segment blobCV [120, 300, 90] 100 = Segmented.region [300] := by decide
      rw [hseg] at h
      cases h
      decide)

end ObjectTracking
